import Mathlib

/-!
Verification of the `filters` package of the tgo repository
(src/filters/filter.go): the update data model, the filter algebra
(`And`, `Or`, `Not`), the sender allow/deny lists (`Whitelist`,
`Blacklist`) and command matching (`Command`, `Commands`).

Go `bool` results are embedded as `Option Bool`: `some b` is a normal
return of `b`, `none` models a runtime panic (the nil-pointer
dereference reachable in `Whitelist`'s CallbackQuery branch).  Go
`int64` sender IDs are embedded as `Int` (no arithmetic is performed
on them, only equality).  The in-place normalization of the
caller-supplied command slice in `Commands` is modelled by explicit
state passing: `Commands` returns the slice as the caller observes it
after the call, alongside the constructed filter.
-/

namespace tgo

/-- Modelled from the spec: the `tgo.User` type of the host framework is not
under src/; per the spec, `From` carries an integer ID. -/
structure User where
  Id : Int
deriving DecidableEq, Repr

/-- Modelled from the spec: the `tgo.Message` payload is not under src/; per
the spec it carries optional Text, Caption and From (absent text/caption is
the empty string, absent From is `none`, mirroring Go's zero values). -/
structure Message where
  Text : String
  Caption : String
  From : Option User
deriving DecidableEq, Repr

/-- Modelled from the spec: the `tgo.CallbackQuery` payload is not under
src/; per the spec it carries Data and From (a nullable pointer in Go,
hence `Option`). -/
structure CallbackQuery where
  Data : String
  From : Option User
deriving DecidableEq, Repr

/-- Modelled from the spec: the `tgo.InlineQuery` payload is not under src/;
per the spec it carries a Query field. -/
structure InlineQuery where
  Query : String
deriving DecidableEq, Repr

/-- Modelled from the spec: the `tgo.Update` tagged union is not under src/.
Exactly one variant is populated per instance; `ExtractUpdate` returns that
single populated payload (or a none variant when nothing recognized is
populated), so the Go type switch on `ExtractUpdate(update)` is embedded as
a direct match on this sum.  `unhandled` stands for every other or
unrecognized update kind. -/
inductive Update where
  | message (m : Message)
  | callbackQuery (q : CallbackQuery)
  | inlineQuery (q : InlineQuery)
  | unhandled
deriving DecidableEq, Repr

end tgo

namespace filters

/-- Embeds `type FilterFunc func(update *tgo.Update) bool`; `none` models a
panic during evaluation. -/
abbrev FilterFunc := tgo.Update → Option Bool

/-- Embeds `type Filter struct{ f FilterFunc }`. -/
structure Filter where
  f : FilterFunc

/-- Embeds `func (f Filter) Check(update *tgo.Update) bool`. -/
def Filter.Check (fl : Filter) (update : tgo.Update) : Option Bool :=
  fl.f update

/-- Embeds `func NewFilter(f FilterFunc) *Filter`. -/
def NewFilter (f : FilterFunc) : Filter := ⟨f⟩

/-- The loop body of `Or`: left-to-right, short-circuits on the first
`true`; a panic (`none`) in a checked filter propagates. -/
def orLoop : List Filter → tgo.Update → Option Bool
  | [], _ => some false
  | filter :: rest, update =>
      (filter.Check update).bind fun b =>
        if b then some true else orLoop rest update

/-- Embeds `func Or(filters ...tgo.Filter) tgo.Filter`. -/
def Or (fs : List Filter) : Filter :=
  NewFilter fun update => orLoop fs update

/-- The loop body of `And`: left-to-right, short-circuits on the first
`false`; a panic (`none`) in a checked filter propagates. -/
def andLoop : List Filter → tgo.Update → Option Bool
  | [], _ => some true
  | filter :: rest, update =>
      (filter.Check update).bind fun b =>
        if b then andLoop rest update else some false

/-- Embeds `func And(filters ...tgo.Filter) tgo.Filter`. -/
def And (fs : List Filter) : Filter :=
  NewFilter fun update => andLoop fs update

/-- Embeds `func Not(filter tgo.Filter) tgo.Filter`: negates the inner
result; if the inner check panics, so does the negation. -/
def Not (filter : Filter) : Filter :=
  NewFilter fun update => (filter.Check update).map fun b => !b

/-- The ID-comparison loop shared by `Whitelist`'s branches:
`for _, id := range IDs { if id == senderID { return true } }; return false`. -/
def idLoop : List Int → Int → Bool
  | [], _ => false
  | id :: rest, senderID => id == senderID || idLoop rest senderID

/-- Embeds `func Whitelist(IDs ...int64) tgo.Filter`.  In the Message
branch `senderID` keeps its zero value when `From` is nil; the
CallbackQuery branch reads `data.From.Id` with no nil guard, so a nil
`From` there is a panic (`none`); other update kinds return false before
any comparison. -/
def Whitelist (IDs : List Int) : Filter :=
  NewFilter fun update =>
    match update with
    | tgo.Update.message data =>
        some (idLoop IDs (match data.From with
          | some sender => sender.Id
          | none => 0))
    | tgo.Update.callbackQuery data =>
        (match data.From with
          | some sender => some sender.Id
          | none => none).map fun senderID => idLoop IDs senderID
    | _ => some false

/-- Embeds `func Blacklist(IDs ...int64) tgo.Filter`:
`return Not(Whitelist(IDs...))`. -/
def Blacklist (IDs : List Int) : Filter :=
  Not (Whitelist IDs)

/-- The construction-time normalization loop of `Commands`:
`for index, command := range cmds { cmds[index] = strings.ToLower(prefix + command) }`. -/
def normalizeCmds (pfx : String) : List String → List String
  | [] => []
  | command :: rest => (pfx ++ command).toLower :: normalizeCmds pfx rest

/-- The match-time loop of `Commands` over the normalized commands. -/
def cmdLoop (botUsername text : String) : List String → Bool
  | [] => false
  | cmd :: rest =>
      (text == cmd || text == cmd ++ botUsername
          || text.startsWith (cmd ++ " ")
          || text.startsWith (cmd ++ botUsername ++ " "))
        || cmdLoop botUsername text rest

/-- Embeds `func Commands(prefix, botUsername string, cmds ...string) tgo.Filter`.
The first component of the result is the caller-supplied slice as observed
after the call (the in-place mutation, by explicit state passing); the
second is the constructed filter. -/
def Commands (pfx botUsername : String) (cmds : List String) :
    List String × Filter :=
  let cmds := normalizeCmds pfx cmds
  let botUsername :=
    if botUsername.startsWith "@" then botUsername else "@" ++ botUsername
  (cmds, NewFilter fun update =>
    match update with
    | tgo.Update.message msg =>
        let text := if msg.Text = "" then msg.Caption else msg.Text
        some (cmdLoop botUsername text cmds)
    | _ => some false)

/-- Embeds `func Command(cmd, botUsername string) tgo.Filter`:
`return Commands("/", botUsername, cmd)`. -/
def Command (cmd botUsername : String) : List String × Filter :=
  Commands "/" botUsername [cmd]

end filters

/-- An update is in the scope of the sender-less claims when it has no
resolvable sender: a Message whose From is absent, or any kind other than
Message/CallbackQuery.  For the Message case the sentinel-zero behaviour
additionally requires 0 to be outside the configured ID list. -/
def noSenderScope (IDs : List Int) : tgo.Update → Prop
  | tgo.Update.message m => m.From = none ∧ (0 : Int) ∉ IDs
  | tgo.Update.callbackQuery _ => False
  | tgo.Update.inlineQuery _ => True
  | tgo.Update.unhandled => True

/-- The ID loop returns true exactly on membership of the sender ID. -/
theorem idLoop_eq_true_iff (IDs : List Int) (x : Int) :
    filters.idLoop IDs x = true ↔ x ∈ IDs := by
  induction IDs with
  | nil => simp [filters.idLoop]
  | cons id rest ih =>
      simp only [filters.idLoop, Bool.or_eq_true, beq_iff_eq, ih, List.mem_cons]
      constructor
      · rintro (h | h)
        · exact Or.inl h.symm
        · exact Or.inr h
      · rintro (h | h)
        · exact Or.inl h.symm
        · exact Or.inr h

/-- Shared helper: within the sender-less scope, the whitelist check
returns false. -/
theorem whitelist_check_noSenderScope (IDs : List Int) (u : tgo.Update)
    (h : noSenderScope IDs u) :
    (filters.Whitelist IDs).Check u = some false := by
  cases u with
  | message m =>
      obtain ⟨hFrom, h0⟩ := h
      have hl : filters.idLoop IDs 0 = false := by
        rw [← Bool.not_eq_true, idLoop_eq_true_iff]
        exact h0
      simp [filters.Whitelist, filters.Filter.Check, filters.NewFilter, hFrom, hl]
  | callbackQuery q => exact absurd h (by simp [noSenderScope])
  | inlineQuery q => rfl
  | unhandled => rfl

/-- Claim C1 counterexample: `Whitelist(0)` applied to a Message with absent
From does not return false — the unresolved sender is the sentinel 0, which
is in the ID list, so the check returns true. -/
theorem whitelist_zero_senderless_counterexample :
    (filters.Whitelist [0]).Check (tgo.Update.message ⟨"", "", none⟩)
      ≠ some false := by
  decide

/-- Claim C1 (corrected): for every ID list, `Whitelist(IDs...).Check`
returns false on each update with no resolvable sender — a Message whose
From is absent (provided 0 is not among the IDs; the unresolved sender is
the sentinel 0) or any update kind other than Message/CallbackQuery
(regardless of which IDs are configured). -/
theorem whitelist_senderless_never_matches (IDs : List Int) (u : tgo.Update)
    (h : noSenderScope IDs u) :
    (filters.Whitelist IDs).Check u = some false :=
  whitelist_check_noSenderScope IDs u h

/-- Witness for C1: a Message with no From against IDs 1,2,3, and an
InlineQuery even against the ID list containing 0. -/
theorem whitelist_senderless_never_matches_witness :
    (filters.Whitelist [1, 2, 3]).Check (tgo.Update.message ⟨"", "", none⟩)
        = some false
      ∧ (filters.Whitelist [0]).Check (tgo.Update.inlineQuery ⟨"2"⟩)
        = some false :=
  ⟨whitelist_senderless_never_matches [1, 2, 3] _ ⟨rfl, by decide⟩,
   whitelist_senderless_never_matches [0] _ trivial⟩

/-- Claim C3 counterexample: `Blacklist(0)` applied to a Message with absent
From does not return true — the sentinel sender 0 is whitelisted, so this
sender-less update does not pass the blacklist. -/
theorem blacklist_zero_senderless_counterexample :
    (filters.Blacklist [0]).Check (tgo.Update.message ⟨"", "", none⟩)
      ≠ some true := by
  decide

/-- Claim C3 (corrected): `Blacklist(IDs...).Check` is the pointwise logical
negation of `Whitelist(IDs...).Check` on every update, and sender-less
updates pass the blacklist within the sender-less scope (for a Message with
absent From this requires 0 not to be among the IDs, since the unresolved
sender is the sentinel 0). -/
theorem blacklist_negates_whitelist (IDs : List Int) (u : tgo.Update) :
    (filters.Blacklist IDs).Check u
        = ((filters.Whitelist IDs).Check u).map (fun b => !b)
      ∧ (noSenderScope IDs u → (filters.Blacklist IDs).Check u = some true) := by
  refine ⟨rfl, fun h => ?_⟩
  have hw := whitelist_check_noSenderScope IDs u h
  show ((filters.Whitelist IDs).Check u).map (fun b => !b) = some true
  rw [hw]
  rfl

/-- Witness for C3: `Blacklist(1,2,3)` passes a Message with no From. -/
theorem blacklist_negates_whitelist_witness :
    (filters.Blacklist [1, 2, 3]).Check (tgo.Update.message ⟨"", "", none⟩)
      = some true :=
  (blacklist_negates_whitelist [1, 2, 3] _).2 ⟨rfl, by decide⟩

/-- Claim C5: the filter `And()` built from zero filters returns true on
every update, and `Or()` built from zero filters returns false. -/
theorem and_empty_true_or_empty_false (u : tgo.Update) :
    (filters.And []).Check u = some true
      ∧ (filters.Or []).Check u = some false :=
  ⟨rfl, rfl⟩

/-- Claim C6: De Morgan over the combinator algebra — `And(f1, f2)` checks
exactly as `Not(Or(Not(f1), Not(f2)))` on every update (panics included). -/
theorem and_pair_de_morgan (f1 f2 : filters.Filter) (u : tgo.Update) :
    (filters.And [f1, f2]).Check u
      = (filters.Not (filters.Or [filters.Not f1, filters.Not f2])).Check u := by
  cases h1 : f1.f u with
  | none =>
      simp [filters.And, filters.Or, filters.Not, filters.NewFilter,
        filters.Filter.Check, filters.andLoop, filters.orLoop, h1]
  | some b1 =>
      cases h2 : f2.f u with
      | none =>
          cases b1 <;>
            simp [filters.And, filters.Or, filters.Not, filters.NewFilter,
              filters.Filter.Check, filters.andLoop, filters.orLoop, h1, h2]
      | some b2 =>
          cases b1 <;> cases b2 <;>
            simp [filters.And, filters.Or, filters.Not, filters.NewFilter,
              filters.Filter.Check, filters.andLoop, filters.orLoop, h1, h2]

/-- Claim C7: double negation is the identity on observable filter
behaviour — `Not(Not(f))` checks exactly as `f` on every update. -/
theorem not_not_identity (f : filters.Filter) (u : tgo.Update) :
    (filters.Not (filters.Not f)).Check u = f.Check u := by
  cases h : f.f u with
  | none =>
      simp [filters.Not, filters.NewFilter, filters.Filter.Check, h]
  | some b =>
      cases b <;>
        simp [filters.Not, filters.NewFilter, filters.Filter.Check, h]

/-- Claim C8: `Command(name, botUsername)` is definitional sugar for the
single-command `Commands("/", botUsername, name)` and behaves identically
on every update. -/
theorem command_is_commands_sugar (cmd botUsername : String)
    (u : tgo.Update) :
    (filters.Command cmd botUsername).2.Check u
      = (filters.Commands "/" botUsername [cmd]).2.Check u :=
  rfl

/-- Claim C9: when 0 is among the whitelisted IDs, a Message with absent
From matches — the unresolved sender resolves to the sentinel ID 0, which
is compared against the configured IDs exactly like a real sender ID. -/
theorem whitelist_zero_sentinel_matches (IDs : List Int) (m : tgo.Message)
    (h0 : (0 : Int) ∈ IDs) (hFrom : m.From = none) :
    (filters.Whitelist IDs).Check (tgo.Update.message m) = some true := by
  have hl : filters.idLoop IDs 0 = true := (idLoop_eq_true_iff IDs 0).mpr h0
  simp [filters.Whitelist, filters.Filter.Check, filters.NewFilter, hFrom, hl]

/-- Witness for C9: `Whitelist(0)` matches a Message with no From. -/
theorem whitelist_zero_sentinel_matches_witness :
    (filters.Whitelist [0]).Check (tgo.Update.message ⟨"", "", none⟩)
      = some true :=
  whitelist_zero_sentinel_matches [0] ⟨"", "", none⟩ (by decide) rfl

/-- Claim C10: the CallbackQuery branch of `Whitelist` reads `From.Id` with
no nil guard, so a CallbackQuery with nil From makes `Check` panic (`none`
in this embedding); under the precondition that every CallbackQuery carries
a non-nil From, the error branch is unreachable and `Check` is total. -/
theorem whitelist_callback_nil_from_panics (IDs : List Int) :
    (∀ d : String,
        (filters.Whitelist IDs).Check (tgo.Update.callbackQuery ⟨d, none⟩)
          = none)
      ∧ ∀ u : tgo.Update,
          (∀ q : tgo.CallbackQuery,
              u = tgo.Update.callbackQuery q → q.From.isSome = true)
          → ((filters.Whitelist IDs).Check u).isSome = true := by
  constructor
  · intro d
    rfl
  · intro u hq
    cases u with
    | message m => rfl
    | callbackQuery q =>
        have hs := hq q rfl
        cases hFrom : q.From with
        | none => rw [hFrom] at hs; cases hs
        | some s =>
            simp [filters.Whitelist, filters.Filter.Check, filters.NewFilter,
              hFrom]
    | inlineQuery q => rfl
    | unhandled => rfl

/-- Witness for C10: a CallbackQuery with a present From evaluates without
panicking. -/
theorem whitelist_callback_nil_from_panics_witness :
    ((filters.Whitelist [1]).Check
        (tgo.Update.callbackQuery ⟨"d", some ⟨5⟩⟩)).isSome = true :=
  (whitelist_callback_nil_from_panics [1]).2 _
    (fun q hq => by cases hq; rfl)

/-- Claim C4: constructing `Commands` rewrites the caller-supplied slice in
place — afterwards every entry equals the lower-casing of the prefix
concatenated with the original entry (here by explicit state passing: the
first component of `Commands` is the slice as the caller observes it after
the call). -/
theorem commands_normalizes_caller_slice (pfx botUsername : String)
    (cmds : List String) (i : Nat) :
    ((filters.Commands pfx botUsername cmds).1)[i]?
      = (cmds[i]?).map fun command => (pfx ++ command).toLower := by
  show (filters.normalizeCmds pfx cmds)[i]? = _
  induction cmds generalizing i with
  | nil => simp [filters.normalizeCmds]
  | cons c rest ih =>
      cases i with
      | zero => simp [filters.normalizeCmds]
      | succ n => simpa [filters.normalizeCmds] using ih n

/-- The spec's match condition for `Commands`, stated from the spec's
words: the update's populated variant is a Message; its text (falling back
to the caption when the text is empty) equals a normalized command
(lower-cased prefix+name), or equals command+botUsername (botUsername
normalized to a leading "@"), or starts with command+" ", or starts with
command+botUsername+" ". -/
def commandsSpecMatch (pfx botUsername : String) (cmds : List String)
    (u : tgo.Update) : Prop :=
  ∃ m, u = tgo.Update.message m ∧ ∃ c ∈ cmds,
    (let cmd := (pfx ++ c).toLower
     let bu := if botUsername.startsWith "@" then botUsername
               else "@" ++ botUsername
     let text := if m.Text = "" then m.Caption else m.Text
     text = cmd ∨ text = cmd ++ bu
       ∨ text.startsWith (cmd ++ " ") = true
       ∨ text.startsWith (cmd ++ bu ++ " ") = true)

/-- The match-time loop over the normalized commands succeeds exactly when
some original command, once normalized, matches the text. -/
theorem cmdLoop_normalize_iff (pfx bu text : String) (cmds : List String) :
    filters.cmdLoop bu text (filters.normalizeCmds pfx cmds) = true
      ↔ ∃ c ∈ cmds,
          (text = (pfx ++ c).toLower
            ∨ text = (pfx ++ c).toLower ++ bu
            ∨ text.startsWith ((pfx ++ c).toLower ++ " ") = true
            ∨ text.startsWith ((pfx ++ c).toLower ++ bu ++ " ") = true) := by
  induction cmds with
  | nil => simp [filters.normalizeCmds, filters.cmdLoop]
  | cons c rest ih =>
      simp [filters.normalizeCmds, filters.cmdLoop, ih, Bool.or_eq_true,
        beq_iff_eq, or_assoc]

/-- Claim C2: `Commands` matches exactly the Message updates whose text
(falling back to the caption when the text is empty) equals a normalized
command, or equals command+botUsername, or starts with command+" ", or
starts with command+botUsername+" "; every non-Message update checks
false. -/
theorem commands_check_spec (pfx botUsername : String) (cmds : List String)
    (u : tgo.Update) :
    ((filters.Commands pfx botUsername cmds).2.Check u = some true
        ↔ commandsSpecMatch pfx botUsername cmds u)
      ∧ ((∀ m, u ≠ tgo.Update.message m)
          → (filters.Commands pfx botUsername cmds).2.Check u = some false) := by
  cases u with
  | message m =>
      refine ⟨?_, fun hne => absurd rfl (hne m)⟩
      show some (filters.cmdLoop _ _ (filters.normalizeCmds pfx cmds))
          = some true ↔ _
      rw [Option.some_inj, cmdLoop_normalize_iff]
      simp [commandsSpecMatch]
  | callbackQuery q =>
      refine ⟨?_, fun _ => rfl⟩
      simp [commandsSpecMatch]
      intro h
      exact Bool.noConfusion (Option.some.inj h)
  | inlineQuery q =>
      refine ⟨?_, fun _ => rfl⟩
      simp [commandsSpecMatch]
      intro h
      exact Bool.noConfusion (Option.some.inj h)
  | unhandled =>
      refine ⟨?_, fun _ => rfl⟩
      simp [commandsSpecMatch]
      intro h
      exact Bool.noConfusion (Option.some.inj h)

/-- Witness for C2: an InlineQuery whose query text is "/start" still
checks false under `Commands("/", "mybot", "Start")`. -/
theorem commands_check_spec_witness :
    (filters.Commands "/" "mybot" ["Start"]).2.Check
        (tgo.Update.inlineQuery ⟨"/start"⟩) = some false :=
  (commands_check_spec "/" "mybot" ["Start"] _).2
    (fun _ hm => tgo.Update.noConfusion hm)
